import Mathlib

/-!
Shallow embedding of `scripts/build_traceability_audit.py`: the item loader,
the HODOR annotation scanner, the link resolver and the coverage summary.
Python strings are modelled as Lean `String`/`List Char`; raised exceptions as
`Except` with a structured error type whose constructor arguments are exactly
the values interpolated into the Python messages; YAML scalars as an inductive
type; `float` percentages as `Rat` with round-half-to-even.  The filesystem is
abstracted to the lists of directories/files the script would enumerate, in
enumeration order; file contents are carried as parsed YAML objects (loader)
or raw text (scanner).
-/

namespace Hodor

/-! Character helpers mirroring Python `str.strip` / `re` whitespace. -/

/-- Whitespace set of Python `\s` and `str.strip()` restricted to ASCII. -/
def isWs (c : Char) : Bool :=
  c = ' ' || c = '\t' || c = '\n' || c = '\r' || c = '\x0b' || c = '\x0c'

/-- Characters matched by the regex class `[A-Z-]`. -/
def isUpperDash (c : Char) : Bool :=
  c.isUpper || c = '-'

/-- Trailing-whitespace strip on a character list (Python `str.rstrip`). -/
def rstripChars (l : List Char) : List Char :=
  (l.reverse.dropWhile isWs).reverse

/-- Both-ends whitespace strip on a character list (Python `str.strip`). -/
def trimChars (l : List Char) : List Char :=
  ((l.dropWhile isWs).reverse.dropWhile isWs).reverse

/-- Python `str.rstrip` on strings. -/
def rstripStr (s : String) : String :=
  String.mk (rstripChars s.data)

/-- Python `str.strip` on strings. -/
def stripStr (s : String) : String :=
  String.mk (trimChars s.data)

/-- Python `str.splitlines` (modelling the line breaks `\n`, `\r` and `\r\n`;
the inputs of interest contain no exotic Unicode breaks).  A trailing break
produces no trailing empty line, matching Python. -/
def splitlinesChars : List Char → List Char → List (List Char)
  | [], acc => if acc = [] then [] else [acc]
  | '\r' :: '\n' :: rest, acc => acc :: splitlinesChars rest []
  | '\n' :: rest, acc => acc :: splitlinesChars rest []
  | '\r' :: rest, acc => acc :: splitlinesChars rest []
  | c :: rest, acc => splitlinesChars rest (acc ++ [c])

/-- Python `text.splitlines()`. -/
def pySplitlines (s : String) : List String :=
  (splitlinesChars s.data []).map String.mk

/-! Directive-line recognition: the embedding of
`DIRECTIVE_RE = ^\s*(?:#|//|--|;|/\*+|\*+)?\s*(HODOR-[A-Z-]+)\s*:\s*(.*)$`.
The regex alternatives are mutually exclusive on their first characters and
the starred alternatives are maximal-munch, so a deterministic scan is
an exact model (see the comment on each branch). -/

/-- Strip the optional single-line comment marker `#`, `//`, `--`, `;`,
`/*+` or `*+`.  When no alternative applies the list is returned unchanged,
which models the regex making the group optional. -/
def stripComment : List Char → List Char
  | '#' :: r => r
  | '/' :: '/' :: r => r
  | '-' :: '-' :: r => r
  | ';' :: r => r
  | '/' :: '*' :: r => r.dropWhile (· = '*')
  | '*' :: r => r.dropWhile (· = '*')
  | l => l

/-- Match a literal character sequence, returning the remainder. -/
def dropLit : List Char → List Char → Option (List Char)
  | [], cs => some cs
  | p :: ps, c :: cs => if c = p then dropLit ps cs else none
  | _ :: _, [] => none

/-- Embedding of `DIRECTIVE_RE.match(line)`: returns the directive token
(group 1, already whitespace-free) and the stripped value
(`match.group(2).strip()` as performed by `parse_hodor_blocks`). -/
def matchDirective (line : String) : Option (String × String) :=
  let cs := (stripComment (line.data.dropWhile isWs)).dropWhile isWs
  match dropLit ['H', 'O', 'D', 'O', 'R', '-'] cs with
  | none => none
  | some rest =>
    let name := rest.takeWhile isUpperDash
    if name = [] then none
    else
      match (rest.dropWhile isUpperDash).dropWhile isWs with
      | ':' :: rest2 =>
        some (String.mk (['H', 'O', 'D', 'O', 'R', '-'] ++ name), String.mk (trimChars rest2))
      | _ => none

/-- Embedding of `split_list`: replace `;` by `,`, split on `,`, strip each
part and drop empties. -/
def splitList (v : String) : List String :=
  (((v.data.map (fun c => if c = ';' then ',' else c)).splitOn ',').map
    (fun part => String.mk (trimChars part))).filter (fun s => s ≠ "")

/-! Errors raised by the script.  Each constructor corresponds to one
`raise` site; its arguments are exactly the values interpolated into the
message f-string at that site. -/

/-- Structured form of the exceptions raised by the script. -/
inductive AuditError where
  /-- Raised as a directory-not-found error naming the label and path. -/
  | dirNotFound (label : String) (dirPath : String)
  /-- Raised by the loader for a duplicate item id, naming the id and file. -/
  | duplicateItemId (uid : String) (filePath : String)
  /-- Raised by the parser for an unknown directive at a file and line. -/
  | unknownDirective (directive : String) (pathLabel : String) (lineNo : Nat)
  /-- Raised by the scanner for a block with no requirement references. -/
  | missingReqs (relLabel : String) (startLine : Nat)
  /-- Raised by the scanner for a duplicate effective test id in a file. -/
  | duplicateTestIdScan (testId : String) (relLabel : String)
  /-- Raised by the resolver for a duplicate id in the combined test set. -/
  | duplicateTestId (testId : String)
deriving DecidableEq

/-- File paths interpolated into the message of each error. -/
def AuditError.paths : AuditError → List String
  | .dirNotFound _ d => [d]
  | .duplicateItemId _ f => [f]
  | .unknownDirective _ p _ => [p]
  | .missingReqs r _ => [r]
  | .duplicateTestIdScan _ r => [r]
  | .duplicateTestId _ => []

/-! The directive-block scanner `parse_hodor_blocks`. -/

/-- Transient scanning artifact: the dict
`{"id": None, "reqs": [], "refs": [], "text": [], "start_line": line_no}`. -/
structure Block where
  id : Option String
  reqs : List String
  refs : List String
  text : List String
  startLine : Nat
deriving DecidableEq

/-- The fresh block allocated when a directive line arrives in the idle
state, recording the current line number. -/
def emptyBlock (lineNo : Nat) : Block :=
  { id := none, reqs := [], refs := [], text := [], startLine := lineNo }

/-- Dispatch of one recognized directive onto the open block; an unknown
`HODOR-*` token raises. -/
def applyDirective (b : Block) (d v : String) (pathLabel : String) (lineNo : Nat) :
    Except AuditError Block :=
  if d = "HODOR-ID" then .ok { b with id := some v }
  else if d = "HODOR-REQS" then .ok { b with reqs := b.reqs ++ splitList v }
  else if d = "HODOR-REF" ∨ d = "HODOR-REFS" then .ok { b with refs := b.refs ++ splitList v }
  else if d = "HODOR-TEXT" then .ok (if v = "" then b else { b with text := b.text ++ [v] })
  else .error (.unknownDirective d pathLabel lineNo)

/-- Loop body of `parse_hodor_blocks`: the two-state machine over the lines,
with `none` as the idle state and `some b` as the collecting state; closed
blocks are accumulated in order. -/
def parseGo (pathLabel : String) : List String → Nat → Option Block → List Block →
    Except AuditError (List Block)
  | [], _, none, acc => .ok acc
  | [], _, some b, acc => .ok (acc ++ [b])
  | l :: ls, n, cur, acc =>
    match matchDirective l with
    | none =>
      match cur with
      | none => parseGo pathLabel ls (n + 1) none acc
      | some b => parseGo pathLabel ls (n + 1) none (acc ++ [b])
    | some (d, v) =>
      match applyDirective (cur.getD (emptyBlock n)) d v pathLabel n with
      | .error e => .error e
      | .ok b1 => parseGo pathLabel ls (n + 1) (some b1) acc

/-- Embedding of `parse_hodor_blocks(lines, path_label)`; line numbers are
1-based as in `enumerate(lines, start=1)`. -/
def parseHodorBlocks (lines : List String) (pathLabel : String) :
    Except AuditError (List Block) :=
  parseGo pathLabel lines 1 none []

/-! Synthesized test ids `f"{rel_label}#L{start_line}"`. -/

/-- Decimal digit list of a natural number, as produced by Python `str(int)`
for non-negative values. -/
def natDigits (n : Nat) : List Char :=
  if _h : n < 10 then [Nat.digitChar n]
  else natDigits (n / 10) ++ [Nat.digitChar (n % 10)]
decreasing_by exact Nat.div_lt_self (by omega) (by omega)

/-- The synthesized id `<relative-path>#L<start-line>`. -/
def synthId (relLabel : String) (startLine : Nat) : String :=
  relLabel ++ "#L" ++ String.mk (natDigits startLine)

/-- Embedding of `test_id = block["id"] or f"{rel_label}#L{...}"`: Python
`or` falls through on `None` and on the empty string. -/
def effectiveTestId (blockId : Option String) (relLabel : String) (startLine : Nat) : String :=
  match blockId with
  | some s => if s = "" then synthId relLabel startLine else s
  | none => synthId relLabel startLine

/-! The item loader `load_items`.  YAML scalars are modelled by `YScalar`;
a `links` value may also be a flat list of scalars (the script would accept
nested lists via `str()`, which never occurs in item files and is outside
this model). -/

/-- YAML scalar values occurring in item files. -/
inductive YScalar where
  | s (v : String)
  | i (v : Int)
  | null
deriving DecidableEq

/-- YAML value of a recognized item field: a scalar or a list of scalars. -/
inductive YVal where
  | sc (v : YScalar)
  | arr (vs : List YScalar)
deriving DecidableEq

/-- Python truthiness of a YAML value. -/
def truthyY : YVal → Bool
  | .sc (.s v) => v ≠ ""
  | .sc (.i v) => v ≠ 0
  | .sc .null => false
  | .arr vs => vs ≠ []

/-- Python `str()` of a scalar. -/
def scalarStr : YScalar → String
  | .s v => v
  | .i v => toString v
  | .null => "None"

/-- Python `repr()` of a scalar, used by `str()` on lists. -/
def scalarRepr : YScalar → String
  | .s v => String.mk (Char.ofNat 39 :: v.data ++ [Char.ofNat 39])
  | .i v => toString v
  | .null => "None"

/-- Comma-space interposition for Python list printing. -/
def joinCommaSp : List String → String
  | [] => ""
  | [x] => x
  | x :: xs => x ++ ", " ++ joinCommaSp xs

/-- Python `str()` of a YAML value. -/
def pyStrY : YVal → String
  | .sc v => scalarStr v
  | .arr vs => "[" ++ joinCommaSp (vs.map scalarRepr) ++ "]"

/-- The recognized fields of a parsed item file (`yaml.safe_load` result);
unrecognized fields are ignored by the script and omitted here.  A missing
key models `data.get(...) is None`. -/
structure YObj where
  uid : Option YVal
  text : Option YVal
  title : Option YVal
  links : Option YVal
deriving DecidableEq

/-- One structured data file as the loader sees it. -/
structure SrcFile where
  /-- Printed form of the resolved path, used in the duplicate-id error. -/
  filePath : String
  /-- Printed form of the path relative to the root, stored in the record. -/
  relPath : String
  /-- Base name of the file, checked against the skip list. -/
  name : String
  /-- Stem of the file name, the default id. -/
  stem : String
  /-- The parsed YAML mapping. -/
  data : YObj
deriving DecidableEq

/-- One configured item directory: its resolved path (for the error
message), whether it exists, and its files in enumeration order
(`*.yml` sorted, then `*.yaml` sorted). -/
structure SrcDir where
  dirPath : String
  present : Bool
  files : List SrcFile
deriving DecidableEq

/-- The fixed `SKIP_NAMES` set of non-item filenames. -/
def SKIP_NAMES : List String :=
  [".doorstop.yml", "doorstop.yml", ".doorstop.skip", ".doorstop.skip-all"]

/-- Canonical in-memory record for a requirement or a test, as appended by
`load_items` / `load_test_annotations`.  `refs := none` models the absence
of the `"refs"` key on loader-produced dicts. -/
structure Item where
  id : String
  text : String
  links : List String
  path : String
  refs : Option (List String)
deriving DecidableEq

/-- Effective uid: the string form of a truthy `uid` field, else the stem. -/
def effUid (f : SrcFile) : String :=
  match f.data.uid with
  | some v => if truthyY v then pyStrY v else f.stem
  | none => f.stem

/-- Effective text: the first truthy of the `text` and `title` fields (else
the empty string), coerced to a string exactly as the loader does. -/
def effText (f : SrcFile) : String :=
  let chosen : YVal :=
    match f.data.text with
    | some v =>
      if truthyY v then v else
        match f.data.title with
        | some w => if truthyY w then w else .sc (.s (""))
        | none => .sc (.s (""))
    | none =>
      match f.data.title with
      | some w => if truthyY w then w else .sc (.s (""))
      | none => .sc (.s (""))
  match chosen with
  | .sc (.s v) => v
  | other => pyStrY other

/-- The `links` normalization: falsy values default to `[]`, a string
becomes a singleton, a non-list non-string becomes `[]`, and every entry is
coerced with `str()`. -/
def effLinks (f : SrcFile) : List String :=
  match f.data.links with
  | none => []
  | some v =>
    if truthyY v then
      match v with
      | .sc (.s v1) => [v1]
      | .arr vs => vs.map scalarStr
      | .sc _ => []
    else []

/-- The record dict appended by `load_items` for one accepted file. -/
def mkItem (f : SrcFile) : Item :=
  { id := effUid f
    text := rstripStr (effText f)
    links := effLinks f
    path := f.relPath
    refs := none }

/-- Inner file loop of `load_items`, threading the `seen` id set. -/
def loadFiles : List SrcFile → List String → List Item →
    Except AuditError (List String × List Item)
  | [], seen, acc => .ok (seen, acc)
  | f :: fs, seen, acc =>
    if f.name ∈ SKIP_NAMES then loadFiles fs seen acc
    else
      let uid := effUid f
      if uid ∈ seen then .error (.duplicateItemId uid f.filePath)
      else loadFiles fs (uid :: seen) (acc ++ [mkItem f])

/-- Directory loop of `load_items`; `seen` is shared across directories. -/
def loadItemsGo (label : String) : List SrcDir → List String → List Item →
    Except AuditError (List Item)
  | [], _, acc => .ok acc
  | d :: ds, seen, acc =>
    if d.present then
      match loadFiles d.files seen acc with
      | .error e => .error e
      | .ok (seen2, acc2) => loadItemsGo label ds seen2 acc2
    else .error (.dirNotFound label d.dirPath)

/-- Embedding of `load_items(root, rel_dirs, label)`. -/
def loadItems (dirs : List SrcDir) (label : String) : Except AuditError (List Item) :=
  loadItemsGo label dirs [] []

/-! The annotation scanner `load_test_annotations`. -/

/-- One file met by the scan walk; `content = none` models a
`UnicodeDecodeError` (binary file, skipped without error). -/
structure ScanFile where
  /-- Printed full path, the label passed to `parse_hodor_blocks`. -/
  fullPath : String
  /-- Printed relative path, used in ids, messages and records. -/
  relLabel : String
  content : Option String
deriving DecidableEq

/-- One configured scan directory with its walk result in sorted order. -/
structure ScanDir where
  dirPath : String
  present : Bool
  files : List ScanFile
deriving DecidableEq

/-- Python `"\n".join(lines)`. -/
def joinNL : List String → String
  | [] => ""
  | [x] => x
  | x :: xs => x ++ "\n" ++ joinNL xs

/-- Per-block body of the scanner loop: validates the requirement
references, computes the effective id, checks it against `seen`, and builds
the test record (with the `refs` key present). -/
def scanBlocks (relLabel : String) : List Block → List String → List Item →
    Except AuditError (List String × List Item)
  | [], seen, acc => .ok (seen, acc)
  | b :: bs, seen, acc =>
    if b.reqs = [] then .error (.missingReqs relLabel b.startLine)
    else
      let tid := effectiveTestId b.id relLabel b.startLine
      if tid ∈ seen then .error (.duplicateTestIdScan tid relLabel)
      else
        let t0 := stripStr (joinNL b.text)
        let t1 := if t0 = "" then "Traceability marker in " ++ relLabel else t0
        scanBlocks relLabel bs (tid :: seen)
          (acc ++ [{ id := tid, text := t1, links := b.reqs, path := relLabel,
                     refs := some b.refs }])

/-- Per-file loop of the scanner: undecodable files are skipped; decodable
files are split into lines and segmented into blocks. -/
def scanFiles : List ScanFile → List String → List Item →
    Except AuditError (List String × List Item)
  | [], seen, acc => .ok (seen, acc)
  | f :: fs, seen, acc =>
    match f.content with
    | none => scanFiles fs seen acc
    | some c =>
      match parseHodorBlocks (pySplitlines c) f.fullPath with
      | .error e => .error e
      | .ok blocks =>
        match scanBlocks f.relLabel blocks seen acc with
        | .error e => .error e
        | .ok (seen2, acc2) => scanFiles fs seen2 acc2

/-- Directory loop of the scanner; `seen` is shared across directories. -/
def scanGo : List ScanDir → List String → List Item → Except AuditError (List Item)
  | [], _, acc => .ok acc
  | d :: ds, seen, acc =>
    if d.present then
      match scanFiles d.files seen acc with
      | .error e => .error e
      | .ok (seen2, acc2) => scanGo ds seen2 acc2
    else .error (.dirNotFound ("Test scan") d.dirPath)

/-- Embedding of `load_test_annotations(root, rel_dirs)`. -/
def loadTestAnnotations (dirs : List ScanDir) : Except AuditError (List Item) :=
  scanGo dirs [] []

/-! The reference extractor `extract_refs`, applied to loader-produced test
records (those without a `refs` key). -/

/-- Whether a stripped line starts with the two characters `- `. -/
def startsDash (s : String) : Bool :=
  match s.data with
  | '-' :: ' ' :: _ => true
  | _ => false

/-- The collected entry `line.strip()[2:]`. -/
def refEntry (l : String) : String :=
  String.mk ((trimChars l.data).drop 2)

/-- Loop of `extract_refs` over the rstripped lines, carrying the `in_refs`
flag; the `break` statements are modelled by returning the accumulated
suffix directly. -/
def extractRefsLoop : List String → Bool → List String
  | [], _ => []
  | l :: ls, inRefs =>
    if stripStr l = "References:" then extractRefsLoop ls true
    else if inRefs then
      if stripStr l = "" then []
      else if startsDash (stripStr l) then refEntry l :: extractRefsLoop ls true
      else []
    else extractRefsLoop ls false

/-- Embedding of `extract_refs(text)`. -/
def extractRefs (text : String) : List String :=
  extractRefsLoop ((pySplitlines text).map rstripStr) false

/-! The link resolver and coverage summary of `build_payload`. -/

/-- First id repeated in a list, in scan order: the id on which the
`seen_test_ids` loop of `build_payload` raises, or `none`. -/
def firstDup : List String → List String → Option String
  | [], _ => none
  | x :: xs, seen => if x ∈ seen then some x else firstDup xs (x :: seen)

/-- Strict lexicographic comparison of character lists by code point,
Python string `<`. -/
def charListLt : List Char → List Char → Bool
  | _, [] => false
  | [], _ :: _ => true
  | c :: cs, d :: ds => if c = d then charListLt cs ds else decide (c < d)

/-- Non-strict lexicographic comparison, Python string `<=`. -/
def charListLe : List Char → List Char → Bool
  | [], _ => true
  | _ :: _, [] => false
  | c :: cs, d :: ds => if c = d then charListLe cs ds else decide (c < d)

/-- Lexicographic order on `(requirement_id, test_id)` pairs, as used by
Python `sorted` on string tuples. -/
def pairLeB (a b : String × String) : Bool :=
  if a.1 = b.1 then charListLe a.2.data b.2.data else charListLt a.1.data b.1.data

/-- Propositional form of `pairLeB` for the sorting relation. -/
def pairLe (a b : String × String) : Prop :=
  pairLeB a b = true

instance : DecidableRel pairLe := fun a b =>
  inferInstanceAs (Decidable (pairLeB a b = true))

/-- Propositional form of Python string `<=` for the sorting relation. -/
def strLe (a b : String) : Prop :=
  charListLe a.data b.data = true

instance : DecidableRel strLe := fun a b =>
  inferInstanceAs (Decidable (charListLe a.data b.data = true))

/-- Python `sorted` on a list of id pairs. -/
def sortPairs (l : List (String × String)) : List (String × String) :=
  l.insertionSort pairLe

/-- Python `sorted` on a list of ids. -/
def sortStrings (l : List String) : List String :=
  l.insertionSort strLe

/-- Pairs contributed by the test-side loop: for every test, every declared
link naming a known requirement id yields `(req_id, test["id"])`. -/
def testSidePairs (reqIdsL : List String) : List Item → List (String × String)
  | [] => []
  | t :: ts =>
    t.links.filterMap (fun rid => if rid ∈ reqIdsL then some (rid, t.id) else none)
      ++ testSidePairs reqIdsL ts

/-- Pairs contributed by the requirement-side loop: for every requirement,
every declared link naming a known test id yields `(req["id"], test_id)`. -/
def reqSidePairs (testIdsL : List String) : List Item → List (String × String)
  | [] => []
  | r :: rs =>
    r.links.filterMap (fun tid => if tid ∈ testIdsL then some (r.id, tid) else none)
      ++ reqSidePairs testIdsL rs

/-- The deduplicated, sorted link set of `build_payload`. -/
def linkSet (reqs tests : List Item) : List (String × String) :=
  sortPairs (testSidePairs (reqs.map Item.id) tests
    ++ reqSidePairs (tests.map Item.id) reqs).dedup

/-- Requirement record after resolution, with the `tests` and `status`
fields written back by `build_payload`. -/
structure ResolvedReq where
  id : String
  text : String
  links : List String
  path : String
  tests : List String
  status : String
deriving DecidableEq, Inhabited

/-- Test record after resolution, with `refs` filled for loader-produced
records and the `reqs` and `status` fields written back. -/
structure ResolvedTest where
  id : String
  text : String
  links : List String
  path : String
  refs : List String
  reqs : List String
  status : String
deriving DecidableEq, Inhabited

/-- The `summary` dict of the payload. -/
structure Summary where
  requirements_total : Nat
  tests_total : Nat
  links_total : Nat
  requirements_linked : Nat
  requirements_unlinked : Nat
  tests_linked : Nat
  tests_unlinked : Nat
  coverage_pct : Rat
deriving DecidableEq, Inhabited

/-- The exported payload (minus the wall-clock timestamp and the display
label, which carry no program logic). -/
structure Payload where
  summary : Summary
  requirements : List ResolvedReq
  tests : List ResolvedTest
  links : List (String × String)
deriving DecidableEq, Inhabited

/-- Round half to even, the behavior of Python `round` on representable
values, on an exact rational. -/
def roundHalfEven (q : Rat) : Int :=
  if q - ⌊q⌋ = (1 : Rat) / 2 then (if ⌊q⌋ % 2 = 0 then ⌊q⌋ else ⌊q⌋ + 1)
  else ⌊q + (1 : Rat) / 2⌋

/-- Floor of the base-2 logarithm of a positive rational (junk on other
inputs): the bit-length candidate corrected by one direct comparison. -/
def floorLog2 (q : Rat) : Int :=
  let k : Int := (Nat.log2 q.num.toNat : Int) - (Nat.log2 q.den : Int)
  if (2 : Rat) ^ k ≤ q then k else k - 1

/-- Round an exact rational to the nearest IEEE binary64 value (ties to the
even 53-bit mantissa), returned as the exact rational that float denotes.
Overflow and subnormals cannot arise for the count ratios modelled here, so
only the normal range is represented. -/
def fl64 (q : Rat) : Rat :=
  if q = 0 then 0
  else if q < 0 then
    -((roundHalfEven ((-q) / (2 : Rat) ^ (floorLog2 (-q) - 52)) : Rat)
        * (2 : Rat) ^ (floorLog2 (-q) - 52))
  else
    (roundHalfEven (q / (2 : Rat) ^ (floorLog2 q - 52)) : Rat)
      * (2 : Rat) ^ (floorLog2 q - 52)

/-- The float expression `round(100.0 * linked / total, 1)` of the summary:
the ints convert to binary64, each arithmetic step rounds to binary64, and
Python `round(x, 1)` rounds the float value to the closest tenth (ties to
even) and returns the nearest float to that decimal. -/
def pyCoverage (linked total : Nat) : Rat :=
  let x := fl64 ((100 : Rat) * fl64 (linked : Rat))
  let y := fl64 (x / fl64 (total : Rat))
  fl64 ((roundHalfEven (y * 10) : Rat) / 10)

/-- Resolution of one requirement record: its sorted linked test ids and
status flag. -/
def resolveReq (links : List (String × String)) (r : Item) : ResolvedReq :=
  let ts := sortStrings (links.filterMap (fun p => if p.1 = r.id then some p.2 else none))
  { id := r.id, text := r.text, links := r.links, path := r.path,
    tests := ts, status := if ts = [] then "unlinked" else "linked" }

/-- Resolution of one test record: `refs` filled via `extract_refs` when the
record carries no `refs` key, plus its sorted linked requirement ids and
status flag. -/
def resolveTest (links : List (String × String)) (t : Item) : ResolvedTest :=
  let rs := sortStrings (links.filterMap (fun p => if p.2 = t.id then some p.1 else none))
  { id := t.id, text := t.text, links := t.links, path := t.path,
    refs := (t.refs).getD (extractRefs t.text),
    reqs := rs, status := if rs = [] then "unlinked" else "linked" }

/-- Count of records with a non-empty resolved `tests` list. -/
def linkedReqCount (rs : List ResolvedReq) : Nat :=
  (rs.filter (fun r => r.tests ≠ [])).length

/-- Count of records with a non-empty resolved `reqs` list. -/
def linkedTestCount (ts : List ResolvedTest) : Nat :=
  (ts.filter (fun t => t.reqs ≠ [])).length

/-- The payload produced by `build_payload` once the duplicate-id check has
passed: link-set construction, per-record back-references, and the summary
counts. -/
def resolvedPayload (reqs tests : List Item) : Payload :=
  let links := linkSet reqs tests
  let rreqs := reqs.map (resolveReq links)
  let rtests := tests.map (resolveTest links)
  let total := reqs.length
  let linked := linkedReqCount rreqs
  { summary :=
      { requirements_total := total
        tests_total := tests.length
        links_total := links.length
        requirements_linked := linked
        requirements_unlinked := (rreqs.filter (fun r => r.tests = [])).length
        tests_linked := linkedTestCount rtests
        tests_unlinked := (rtests.filter (fun t => t.reqs = [])).length
        coverage_pct :=
          if total = 0 then 0
          else pyCoverage linked total }
    requirements := rreqs
    tests := rtests
    links := links }

/-- The resolution and aggregation stage of `build_payload`: duplicate-id
check over the combined test namespace, then `resolvedPayload`. -/
def resolve (reqs tests : List Item) : Except AuditError Payload :=
  match firstDup (tests.map Item.id) [] with
  | some d => .error (.duplicateTestId d)
  | none => .ok (resolvedPayload reqs tests)

/-- Embedding of `build_payload`: load the requirement items, the
declarative test items and the scanned annotations, then resolve. -/
def buildPayload (reqDirs testItemDirs : List SrcDir) (scanDirs : List ScanDir) :
    Except AuditError Payload :=
  match loadItems reqDirs ("Requirement") with
  | .error e => .error e
  | .ok reqs =>
    match loadItems testItemDirs ("Test") with
    | .error e => .error e
    | .ok itemTests =>
      match loadTestAnnotations scanDirs with
      | .error e => .error e
      | .ok scanTests => resolve reqs (itemTests ++ scanTests)

/-! Decimal-representation lemmas for the synthesized-id injectivity. -/

theorem natDigits_ne_nil (n : Nat) : natDigits n ≠ [] := by
  rw [natDigits]
  split <;> simp

theorem digitChar_toNat (d : Nat) (h : d < 10) : (Nat.digitChar d).toNat = 48 + d := by
  interval_cases d <;> rfl

theorem natDigits_digits (n : Nat) : ∀ c ∈ natDigits n, c.isDigit = true := by
  induction n using Nat.strong_induction_on with
  | _ n ih =>
    rw [natDigits]
    split
    · rename_i h
      intro c hc
      simp only [List.mem_singleton] at hc
      subst hc
      interval_cases n <;> decide
    · rename_i h
      intro c hc
      rcases List.mem_append.mp hc with h1 | h2
      · exact ih (n / 10) (Nat.div_lt_self (by omega) (by omega)) c h1
      · simp only [List.mem_singleton] at h2
        subst h2
        have hm : n % 10 < 10 := Nat.mod_lt _ (by omega)
        generalize n % 10 = m at hm ⊢
        interval_cases m <;> decide

theorem natDigits_foldl (n : Nat) : ∀ a : Nat,
    (natDigits n).foldl (fun x c => x * 10 + (c.toNat - 48)) a
      = a * 10 ^ (natDigits n).length + n := by
  induction n using Nat.strong_induction_on with
  | _ n ih =>
    intro a
    rw [natDigits]
    split
    · rename_i h
      simp [List.foldl, digitChar_toNat n h]
    · rename_i h
      rw [List.foldl_append, List.length_append]
      rw [ih (n / 10) (Nat.div_lt_self (by omega) (by omega)) a]
      have hm : n % 10 < 10 := Nat.mod_lt _ (by omega)
      simp [List.foldl, digitChar_toNat _ hm]
      rw [pow_succ]
      have h2 := Nat.div_add_mod n 10
      ring_nf
      omega

theorem natDigits_inj {m n : Nat} (h : natDigits m = natDigits n) : m = n := by
  have h1 := natDigits_foldl m 0
  have h2 := natDigits_foldl n 0
  rw [h] at h1
  simp only [Nat.zero_mul, Nat.zero_add] at h1 h2
  omega

theorem takeWhile_append_of_all {p : Char → Bool} :
    ∀ (a : List Char) (x : Char) (r : List Char), (∀ c ∈ a, p c = true) → p x = false →
      (a ++ x :: r).takeWhile p = a ∧ (a ++ x :: r).dropWhile p = x :: r := by
  intro a
  induction a with
  | nil =>
    intro x r _ hx
    simp [List.takeWhile, List.dropWhile, hx]
  | cons c cs ih =>
    intro x r hall hx
    have hc : p c = true := hall c (by simp)
    have hih := ih x r (fun d hd => hall d (by simp [hd])) hx
    simp [List.takeWhile, List.dropWhile, hc, hih.1, hih.2]

theorem synthId_inj {r1 r2 : String} {n1 n2 : Nat}
    (h : synthId r1 n1 = synthId r2 n2) : r1 = r2 ∧ n1 = n2 := by
  unfold synthId at h
  have hd := congrArg String.data h
  simp only [String.data_append] at hd
  have hd2 : r1.data ++ ('#' :: 'L' :: natDigits n1)
      = r2.data ++ ('#' :: 'L' :: natDigits n2) := by
    simpa [List.append_assoc] using hd
  have hrev := congrArg List.reverse hd2
  simp only [List.reverse_append, List.reverse_cons, List.append_assoc,
    List.nil_append, List.cons_append, List.singleton_append] at hrev
  have hrev2 : (natDigits n1).reverse ++ 'L' :: '#' :: r1.data.reverse
      = (natDigits n2).reverse ++ 'L' :: '#' :: r2.data.reverse := by
    simpa [List.append_assoc] using hrev
  have hall1 : ∀ c ∈ (natDigits n1).reverse, Char.isDigit c = true := by
    intro c hc
    exact natDigits_digits n1 c (List.mem_reverse.mp hc)
  have hall2 : ∀ c ∈ (natDigits n2).reverse, Char.isDigit c = true := by
    intro c hc
    exact natDigits_digits n2 c (List.mem_reverse.mp hc)
  have hL : Char.isDigit 'L' = false := by decide
  have t1 := takeWhile_append_of_all (natDigits n1).reverse 'L' ('#' :: r1.data.reverse) hall1 hL
  have t2 := takeWhile_append_of_all (natDigits n2).reverse 'L' ('#' :: r2.data.reverse) hall2 hL
  have htw := congrArg (List.takeWhile Char.isDigit) hrev2
  rw [t1.1, t2.1] at htw
  have hdw := congrArg (List.dropWhile Char.isDigit) hrev2
  rw [t1.2, t2.2] at hdw
  constructor
  · apply String.ext
    apply List.reverse_injective
    simpa using hdw
  · exact natDigits_inj (List.reverse_injective htw)

/-! Resolver helper lemmas. -/

theorem firstDup_eq_none_iff :
    ∀ (l seen : List String), firstDup l seen = none ↔ l.Nodup ∧ ∀ x ∈ l, x ∉ seen := by
  intro l
  induction l with
  | nil => intro seen; simp [firstDup]
  | cons x xs ih =>
    intro seen
    by_cases hx : x ∈ seen
    · simp [firstDup, hx]
    · rw [firstDup]
      simp only [hx, if_false, ih (x :: seen), List.nodup_cons, List.mem_cons]
      constructor
      · rintro ⟨hnd, hall⟩
        refine ⟨⟨fun hxm => (hall x hxm) (Or.inl rfl), hnd⟩, ?_⟩
        intro y hy
        rcases hy with rfl | hy
        · exact hx
        · intro hys
          exact hall y hy (Or.inr hys)
      · rintro ⟨⟨hxnot, hnd⟩, hall⟩
        refine ⟨hnd, ?_⟩
        intro y hy hmem
        rcases hmem with rfl | hmem
        · exact hxnot hy
        · exact hall y (Or.inr hy) hmem

theorem firstDup_eq_none_of_nodup {l : List String} (h : l.Nodup) : firstDup l [] = none := by
  rw [firstDup_eq_none_iff]
  exact ⟨h, by simp⟩

theorem mem_testSidePairs {reqIdsL : List String} {p : String × String} :
    ∀ tests : List Item, p ∈ testSidePairs reqIdsL tests ↔
      ∃ t ∈ tests, p.1 ∈ t.links ∧ p.1 ∈ reqIdsL ∧ p.2 = t.id := by
  intro tests
  induction tests with
  | nil => simp [testSidePairs]
  | cons t ts ih =>
    simp only [testSidePairs, List.mem_append, ih, List.mem_filterMap, List.mem_cons]
    constructor
    · rintro (⟨rid, hrid, hf⟩ | ⟨t2, ht2, h1, h2, h3⟩)
      · by_cases hr : rid ∈ reqIdsL
        · simp only [hr, if_true, Option.some.injEq] at hf
          subst hf
          exact ⟨t, Or.inl rfl, hrid, hr, rfl⟩
        · simp [hr] at hf
      · exact ⟨t2, Or.inr ht2, h1, h2, h3⟩
    · rintro ⟨t2, ht2 | ht2, h1, h2, h3⟩
      · left
        subst ht2
        exact ⟨p.1, h1, by simp only [h2, if_true, ← h3]⟩
      · right
        exact ⟨t2, ht2, h1, h2, h3⟩

theorem mem_reqSidePairs {testIdsL : List String} {p : String × String} :
    ∀ reqs : List Item, p ∈ reqSidePairs testIdsL reqs ↔
      ∃ r ∈ reqs, p.2 ∈ r.links ∧ p.2 ∈ testIdsL ∧ p.1 = r.id := by
  intro reqs
  induction reqs with
  | nil => simp [reqSidePairs]
  | cons r rs ih =>
    simp only [reqSidePairs, List.mem_append, ih, List.mem_filterMap, List.mem_cons]
    constructor
    · rintro (⟨tid, htid, hf⟩ | ⟨r2, hr2, h1, h2, h3⟩)
      · by_cases ht : tid ∈ testIdsL
        · simp only [ht, if_true, Option.some.injEq] at hf
          subst hf
          exact ⟨r, Or.inl rfl, htid, ht, rfl⟩
        · simp [ht] at hf
      · exact ⟨r2, Or.inr hr2, h1, h2, h3⟩
    · rintro ⟨r2, hr2 | hr2, h1, h2, h3⟩
      · left
        subst hr2
        exact ⟨p.2, h1, by simp only [h2, if_true, ← h3]⟩
      · right
        exact ⟨r2, hr2, h1, h2, h3⟩

theorem mem_sortPairs {l : List (String × String)} {p : String × String} :
    p ∈ sortPairs l ↔ p ∈ l :=
  (List.perm_insertionSort pairLe l).mem_iff

theorem nodup_sortPairs {l : List (String × String)} (h : l.Nodup) :
    (sortPairs l).Nodup :=
  ((List.perm_insertionSort pairLe l).nodup_iff).mpr h

theorem mem_linkSet_iff {reqs tests : List Item} {p : String × String} :
    p ∈ linkSet reqs tests ↔
      (∃ t ∈ tests, p.1 ∈ t.links ∧ p.1 ∈ reqs.map Item.id ∧ p.2 = t.id) ∨
      (∃ r ∈ reqs, p.2 ∈ r.links ∧ p.2 ∈ tests.map Item.id ∧ p.1 = r.id) := by
  unfold linkSet
  rw [mem_sortPairs, List.mem_dedup, List.mem_append, mem_testSidePairs, mem_reqSidePairs]

theorem nodup_linkSet (reqs tests : List Item) : (linkSet reqs tests).Nodup :=
  nodup_sortPairs (List.nodup_dedup _)

theorem length_filter_add_length_filter_not {α : Type} (l : List α) (p : α → Bool) :
    (l.filter p).length + (l.filter (fun a => !(p a))).length = l.length := by
  induction l with
  | nil => simp
  | cons a l ih =>
    by_cases h : p a = true
    · simp [List.filter, h, ih]
      omega
    · have h2 : p a = false := by
        cases hpa : p a
        · rfl
        · exact absurd hpa h
      simp [List.filter, h2, ih]
      omega

theorem resolve_ok_elim {reqs tests : List Item} {p : Payload}
    (h : resolve reqs tests = .ok p) : p = resolvedPayload reqs tests := by
  unfold resolve at h
  cases hfd : firstDup (tests.map Item.id) [] with
  | none =>
    rw [hfd] at h
    exact (Except.ok.injEq _ _ ▸ h).symm
  | some d =>
    rw [hfd] at h
    exact absurd h (by simp)

theorem resolvedPayload_links (reqs tests : List Item) :
    (resolvedPayload reqs tests).links = linkSet reqs tests := rfl

/-- Claim C1: every pair in the resolved link set has its requirement id
among the requirement record ids and its test id among the test record ids,
and resolution returns successfully (never raises) whatever dangling ids the
declared links contain, provided only that the combined test namespace is
duplicate-free. -/
theorem resolved_links_endpoints_exist :
    (∀ (reqs tests : List Item) (p : Payload), resolve reqs tests = .ok p →
      ∀ pr ∈ p.links, pr.1 ∈ reqs.map Item.id ∧ pr.2 ∈ tests.map Item.id) ∧
    (∀ reqs tests : List Item, (tests.map Item.id).Nodup →
      (resolve reqs tests).isOk = true) := by
  constructor
  · intro reqs tests p h pr hpr
    rw [resolve_ok_elim h, resolvedPayload_links] at hpr
    rcases mem_linkSet_iff.mp hpr with ⟨t, ht, _, h2, h3⟩ | ⟨r, hr, _, h2, h3⟩
    · exact ⟨h2, h3 ▸ List.mem_map_of_mem Item.id ht⟩
    · exact ⟨h3 ▸ List.mem_map_of_mem Item.id hr, h2⟩
  · intro reqs tests hnd
    unfold resolve
    rw [firstDup_eq_none_of_nodup hnd]
    rfl

theorem filter_eq_nil_of_not_mem {α : Type} [DecidableEq α] {x : α} :
    ∀ l : List α, x ∉ l → l.filter (fun q => q = x) = [] := by
  intro l
  induction l with
  | nil => intro _; rfl
  | cons b bs ih =>
    intro hnot
    have hbx : (decide (b = x)) = false := by
      simp only [decide_eq_false_iff_not]
      intro h
      exact hnot (by simp [h])
    simp only [List.filter, hbx]
    exact ih (fun hxx => hnot (List.mem_cons_of_mem b hxx))

theorem length_filter_eq_one_of_nodup {α : Type} [DecidableEq α] {l : List α} {x : α}
    (hnd : l.Nodup) (hx : x ∈ l) : (l.filter (fun q => q = x)).length = 1 := by
  induction l with
  | nil => cases hx
  | cons a as ih =>
    rcases List.mem_cons.mp hx with rfl | hx2
    · have hnot : x ∉ as := (List.nodup_cons.mp hnd).1
      simp [List.filter, filter_eq_nil_of_not_mem as hnot]
    · have hax : (decide (a = x)) = false := by
        simp only [decide_eq_false_iff_not]
        rintro rfl
        exact (List.nodup_cons.mp hnd).1 hx2
      simp only [List.filter, hax]
      exact ih (List.nodup_cons.mp hnd).2 hx2

/-- Claim C3: a link declared from the test side, the requirement side, or
both, between an existing requirement and an existing test, appears exactly
once in the resolved link set. -/
theorem link_declared_either_side_unique :
    ∀ (reqs tests : List Item) (p : Payload) (R T : Item),
      resolve reqs tests = .ok p → R ∈ reqs → T ∈ tests →
      (R.id ∈ T.links ∨ T.id ∈ R.links) →
      (p.links.filter (fun q => q = (R.id, T.id))).length = 1 := by
  intro reqs tests p R T h hR hT hdecl
  rw [resolve_ok_elim h, resolvedPayload_links]
  have hmem : (R.id, T.id) ∈ linkSet reqs tests := by
    apply mem_linkSet_iff.mpr
    rcases hdecl with h1 | h1
    · exact Or.inl ⟨T, hT, h1, List.mem_map_of_mem Item.id hR, rfl⟩
    · exact Or.inr ⟨R, hR, h1, List.mem_map_of_mem Item.id hT, rfl⟩
  exact length_filter_eq_one_of_nodup (nodup_linkSet reqs tests) hmem

/-- Claim C4: in every resolved payload, `coverage_pct` equals
`round(100.0 * requirements_linked / requirements_total, 1)` computed in
binary64 floats when `requirements_total` is non-zero, and `0.0` when it is
zero; the counts are recomputed here from the payload record list. -/
theorem coverage_pct_formula :
    ∀ (reqs tests : List Item) (p : Payload), resolve reqs tests = .ok p →
      p.summary.requirements_total = p.requirements.length ∧
      p.summary.requirements_linked = linkedReqCount p.requirements ∧
      (p.summary.requirements_total = 0 → p.summary.coverage_pct = 0) ∧
      (p.summary.requirements_total ≠ 0 →
        p.summary.coverage_pct =
          pyCoverage (linkedReqCount p.requirements) p.requirements.length) := by
  intro reqs tests p h
  have hp := resolve_ok_elim h
  subst hp
  refine ⟨?_, ?_, ?_, ?_⟩
  · show reqs.length = (reqs.map (resolveReq (linkSet reqs tests))).length
    rw [List.length_map]
  · rfl
  · intro h0
    have h0L : reqs.length = 0 := h0
    show (if reqs.length = 0 then (0 : Rat)
      else pyCoverage (linkedReqCount (reqs.map (resolveReq (linkSet reqs tests)))) reqs.length) = 0
    rw [if_pos h0L]
  · intro h0
    have h0L : ¬(reqs.length = 0) := h0
    show (if reqs.length = 0 then (0 : Rat)
      else pyCoverage (linkedReqCount (reqs.map (resolveReq (linkSet reqs tests)))) reqs.length)
      = pyCoverage (linkedReqCount (reqs.map (resolveReq (linkSet reqs tests))))
          (reqs.map (resolveReq (linkSet reqs tests))).length
    rw [if_neg h0L, List.length_map]

/-- Claim C8: the linked/unlinked summary counts partition the records on
both sides, where a record counts as linked exactly when its resolved
back-reference list (`tests` resp. `reqs`) is non-empty. -/
theorem summary_counts_partition :
    ∀ (reqs tests : List Item) (p : Payload), resolve reqs tests = .ok p →
      p.summary.requirements_linked + p.summary.requirements_unlinked
          = p.summary.requirements_total ∧
      p.summary.tests_linked + p.summary.tests_unlinked = p.summary.tests_total ∧
      p.summary.requirements_linked = linkedReqCount p.requirements ∧
      p.summary.tests_linked = linkedTestCount p.tests := by
  intro reqs tests p h
  have hp := resolve_ok_elim h
  subst hp
  refine ⟨?_, ?_, rfl, rfl⟩
  · show linkedReqCount (reqs.map (resolveReq (linkSet reqs tests)))
        + ((reqs.map (resolveReq (linkSet reqs tests))).filter
            (fun r => r.tests = [])).length
      = reqs.length
    unfold linkedReqCount
    have hfun : (fun r : ResolvedReq => (decide (r.tests ≠ [])))
        = fun r => !(decide (r.tests = [])) := by
      funext r
      simp
    rw [hfun, Nat.add_comm,
      length_filter_add_length_filter_not (reqs.map (resolveReq (linkSet reqs tests)))
        (fun r => decide (r.tests = [])), List.length_map]
  · show linkedTestCount (tests.map (resolveTest (linkSet reqs tests)))
        + ((tests.map (resolveTest (linkSet reqs tests))).filter
            (fun t => t.reqs = [])).length
      = tests.length
    unfold linkedTestCount
    have hfun : (fun t : ResolvedTest => (decide (t.reqs ≠ [])))
        = fun t => !(decide (t.reqs = [])) := by
      funext t
      simp
    rw [hfun, Nat.add_comm,
      length_filter_add_length_filter_not (tests.map (resolveTest (linkSet reqs tests)))
        (fun t => decide (t.reqs = [])), List.length_map]

theorem applyDirective_startLine {b : Block} {d v pl : String} {n : Nat} {b1 : Block}
    (h : applyDirective b d v pl n = .ok b1) : b1.startLine = b.startLine := by
  unfold applyDirective at h
  split_ifs at h <;> cases h <;> rfl

/-- Claim C6: directive-block segmentation is the two-state machine: a
directive line in the idle state opens a block recording that line number as
`start_line`; a directive line while collecting updates the open block
without changing `start_line`; the first non-directive line (blank lines
included) closes the open block and returns to idle without itself joining
any block; end of input closes and emits a still-open block. -/
theorem parse_hodor_blocks_state_machine :
    (∀ (pl : String) (lines : List String),
      parseHodorBlocks lines pl = parseGo pl lines 1 none []) ∧
    (∀ (pl l : String) (ls : List String) (n : Nat) (acc : List Block),
      matchDirective l = none →
      parseGo pl (l :: ls) n none acc = parseGo pl ls (n + 1) none acc) ∧
    (∀ (pl l : String) (ls : List String) (n : Nat) (b : Block) (acc : List Block),
      matchDirective l = none →
      parseGo pl (l :: ls) n (some b) acc = parseGo pl ls (n + 1) none (acc ++ [b])) ∧
    (∀ (pl l d v : String) (ls : List String) (n : Nat) (acc : List Block) (b1 : Block),
      matchDirective l = some (d, v) → applyDirective (emptyBlock n) d v pl n = .ok b1 →
      parseGo pl (l :: ls) n none acc = parseGo pl ls (n + 1) (some b1) acc ∧
        b1.startLine = n) ∧
    (∀ (pl l d v : String) (ls : List String) (n : Nat) (b : Block) (acc : List Block)
        (b1 : Block),
      matchDirective l = some (d, v) → applyDirective b d v pl n = .ok b1 →
      parseGo pl (l :: ls) n (some b) acc = parseGo pl ls (n + 1) (some b1) acc ∧
        b1.startLine = b.startLine) ∧
    (∀ (pl : String) (n : Nat) (acc : List Block), parseGo pl [] n none acc = .ok acc) ∧
    (∀ (pl : String) (n : Nat) (b : Block) (acc : List Block),
      parseGo pl [] n (some b) acc = .ok (acc ++ [b])) := by
  refine ⟨fun pl lines => rfl, ?_, ?_, ?_, ?_, fun pl n acc => rfl, fun pl n b acc => rfl⟩
  · intro pl l ls n acc h
    rw [parseGo, h]
  · intro pl l ls n b acc h
    rw [parseGo, h]
  · intro pl l d v ls n acc b1 h ha
    constructor
    · rw [parseGo, h]
      simp only [Option.getD_none, ha]
    · rw [applyDirective_startLine ha]
      rfl
  · intro pl l d v ls n b acc b1 h ha
    constructor
    · rw [parseGo, h]
      simp only [Option.getD_some, ha]
    · exact applyDirective_startLine ha

/-- Claim C7: a block with no explicit HODOR-ID gets the synthesized id
`<relative-path>#L<start-line>`, and the synthesis is injective in the
(path, line) pair. -/
theorem synthesized_id_form_and_injective :
    (∀ (rel : String) (n : Nat),
      effectiveTestId none rel n = rel ++ "#L" ++ String.mk (natDigits n)) ∧
    (∀ (r1 r2 : String) (n1 n2 : Nat),
      synthId r1 n1 = synthId r2 n2 → r1 = r2 ∧ n1 = n2) :=
  ⟨fun _ _ => rfl, fun _ _ _ _ h => synthId_inj h⟩

theorem dropWhile_eq_nil_of_all {l : List Char} (h : l.all isWs = true) :
    l.dropWhile isWs = [] := by
  induction l with
  | nil => rfl
  | cons c cs ih =>
    simp only [List.all_cons, Bool.and_eq_true] at h
    simp [List.dropWhile, h.1, ih h.2]

theorem trimChars_eq_nil_of_all {l : List Char} (h : l.all isWs = true) :
    trimChars l = [] := by
  unfold trimChars
  rw [dropWhile_eq_nil_of_all h]
  rfl

theorem matchDirective_hodor_id_line (v : String) :
    matchDirective ("HODOR-ID:" ++ v) = some ("HODOR-ID", stripStr v) := by
  cases v with
  | mk l => rfl


/-- Claim C9: a HODOR-ID directive whose value is empty or whitespace-only
parses to the empty-string id, which Python `or` treats as absent: the
effective test id is the synthesized one, never the empty string. -/
theorem empty_hodor_id_synthesizes :
    (∀ v : String, v.data.all isWs = true →
      matchDirective ("HODOR-ID:" ++ v) = some ("HODOR-ID", "")) ∧
    (∀ (b : Block) (pl : String) (n : Nat),
      applyDirective b ("HODOR-ID") ("") pl n = .ok { b with id := some ("") }) ∧
    (∀ (rel : String) (n : Nat),
      effectiveTestId (some ("")) rel n = synthId rel n ∧ synthId rel n ≠ "") := by
  refine ⟨?_, fun b pl n => rfl, ?_⟩
  · intro v h
    rw [matchDirective_hodor_id_line]
    unfold stripStr
    rw [trimChars_eq_nil_of_all h]
  · intro rel n
    refine ⟨rfl, ?_⟩
    intro hid
    have hdata := congrArg String.data hid
    simp [synthId, String.data_append] at hdata

/-- Files one loader pass accepts: every file of every configured
directory that is not in the skip list, in enumeration order. -/
def acceptedFiles : List SrcDir → List SrcFile
  | [] => []
  | d :: ds => d.files.filter (fun f => f.name ∉ SKIP_NAMES) ++ acceptedFiles ds

/-- State of the `seen` id set after accepting a run of files. -/
def pushUids : List SrcFile → List String → List String
  | [], seen => seen
  | f :: fs, seen => pushUids fs (effUid f :: seen)

/-- First file whose effective uid repeats an earlier claim, paired with
that uid: exactly the data the duplicate-identifier error reports. -/
def firstDupFile : List SrcFile → List String → Option (String × String)
  | [], _ => none
  | f :: fs, seen =>
    if effUid f ∈ seen then some (effUid f, f.filePath)
    else firstDupFile fs (effUid f :: seen)

theorem firstDupFile_append :
    ∀ (A B : List SrcFile) (seen : List String),
      firstDupFile (A ++ B) seen =
        match firstDupFile A seen with
        | some r => some r
        | none => firstDupFile B (pushUids A seen) := by
  intro A
  induction A with
  | nil => intro B seen; rfl
  | cons f fs ih =>
    intro B seen
    rw [List.cons_append, firstDupFile, firstDupFile]
    by_cases h : effUid f ∈ seen
    · rw [if_pos h, if_pos h]
    · rw [if_neg h, if_neg h, ih]
      rfl

theorem loadFiles_dup :
    ∀ (fs : List SrcFile) (seen : List String) (acc : List Item) (u fp : String),
      firstDupFile (fs.filter (fun f => f.name ∉ SKIP_NAMES)) seen = some (u, fp) →
      loadFiles fs seen acc = .error (.duplicateItemId u fp) := by
  intro fs
  induction fs with
  | nil =>
    intro seen acc u fp h
    exact absurd h (by simp [firstDupFile])
  | cons f fs ih =>
    intro seen acc u fp h
    by_cases hskip : f.name ∈ SKIP_NAMES
    · rw [List.filter_cons_of_neg (by simp [hskip])] at h
      rw [loadFiles, if_pos hskip]
      exact ih seen acc u fp h
    · rw [List.filter_cons_of_pos (by simp [hskip]), firstDupFile] at h
      rw [loadFiles, if_neg hskip]
      by_cases hmem : effUid f ∈ seen
      · rw [if_pos hmem] at h
        simp only [Option.some.injEq, Prod.mk.injEq] at h
        rw [if_pos hmem, h.1, h.2]
      · rw [if_neg hmem] at h
        rw [if_neg hmem]
        exact ih _ _ u fp h

theorem loadFiles_clean :
    ∀ (fs : List SrcFile) (seen : List String) (acc : List Item),
      firstDupFile (fs.filter (fun f => f.name ∉ SKIP_NAMES)) seen = none →
      ∃ acc2, loadFiles fs seen acc
        = .ok (pushUids (fs.filter (fun f => f.name ∉ SKIP_NAMES)) seen, acc2) := by
  intro fs
  induction fs with
  | nil =>
    intro seen acc _
    exact ⟨acc, rfl⟩
  | cons f fs ih =>
    intro seen acc h
    by_cases hskip : f.name ∈ SKIP_NAMES
    · rw [List.filter_cons_of_neg (by simp [hskip])] at h ⊢
      rw [loadFiles, if_pos hskip]
      exact ih seen acc h
    · rw [List.filter_cons_of_pos (by simp [hskip])] at h ⊢
      rw [firstDupFile] at h
      by_cases hmem : effUid f ∈ seen
      · rw [if_pos hmem] at h
        cases h
      · rw [if_neg hmem] at h
        rw [loadFiles, if_neg hskip, if_neg hmem]
        rw [pushUids]
        exact ih (effUid f :: seen) (acc ++ [mkItem f]) h

theorem loadItemsGo_dup :
    ∀ (dirs : List SrcDir) (lbl : String) (seen : List String) (acc : List Item)
      (u fp : String),
      (∀ d ∈ dirs, d.present = true) →
      firstDupFile (acceptedFiles dirs) seen = some (u, fp) →
      loadItemsGo lbl dirs seen acc = .error (.duplicateItemId u fp) := by
  intro dirs
  induction dirs with
  | nil =>
    intro lbl seen acc u fp _ h
    exact absurd h (by simp [acceptedFiles, firstDupFile])
  | cons d ds ih =>
    intro lbl seen acc u fp hpres h
    have hd : d.present = true := hpres d (by simp)
    rw [acceptedFiles, firstDupFile_append] at h
    rw [loadItemsGo, if_pos hd]
    cases hA : firstDupFile (d.files.filter (fun f => f.name ∉ SKIP_NAMES)) seen with
    | some r =>
      rw [hA] at h
      simp only [Option.some.injEq] at h
      rw [loadFiles_dup d.files seen acc u fp (by rw [hA, h])]
    | none =>
      rw [hA] at h
      obtain ⟨acc2, hok⟩ := loadFiles_clean d.files seen acc hA
      rw [hok]
      exact ih lbl _ acc2 u fp (fun e he => hpres e (by simp [he])) h

theorem firstDupFile_none_iff :
    ∀ (fs : List SrcFile) (seen : List String),
      firstDupFile fs seen = none ↔ firstDup (fs.map effUid) seen = none := by
  intro fs
  induction fs with
  | nil => intro seen; simp [firstDupFile, firstDup]
  | cons f fs ih =>
    intro seen
    rw [List.map_cons, firstDupFile, firstDup]
    by_cases h : effUid f ∈ seen
    · simp [h]
    · rw [if_neg h, if_neg h]
      exact ih (effUid f :: seen)

/-- Claim C5 (amended): claiming the same effective uid twice anywhere in
one loader pass — any number of files, across directories — aborts the run
with a duplicate-identifier error naming the duplicate uid and the path of
the second claiming file only; a duplicate id in the combined test
namespace likewise aborts resolution. -/
theorem duplicate_ids_fatal :
    (∀ (dirs : List SrcDir) (lbl u fp : String),
      (∀ d ∈ dirs, d.present = true) →
      firstDupFile (acceptedFiles dirs) [] = some (u, fp) →
      loadItems dirs lbl = .error (.duplicateItemId u fp)) ∧
    (∀ fs : List SrcFile, ¬((fs.map effUid).Nodup) →
      (firstDupFile fs []).isSome = true) ∧
    (∀ (reqs tests : List Item) (d : String),
      firstDup (tests.map Item.id) [] = some d →
      resolve reqs tests = .error (.duplicateTestId d)) := by
  refine ⟨?_, ?_, ?_⟩
  · intro dirs lbl u fp hpres h
    exact loadItemsGo_dup dirs lbl [] [] u fp hpres h
  · intro fs hnd
    cases hf : firstDupFile fs [] with
    | some r => rfl
    | none =>
      have hnone := (firstDupFile_none_iff fs []).mp hf
      have := (firstDup_eq_none_iff (fs.map effUid) []).mp hnone
      exact absurd this.1 hnd
  · intro reqs tests d h
    unfold resolve
    rw [h]


theorem scanBlocks_links_nonempty :
    ∀ (blocks : List Block) (rel : String) (seen : List String) (acc : List Item)
      (seen2 : List String) (acc2 : List Item),
      scanBlocks rel blocks seen acc = .ok (seen2, acc2) →
      (∀ it ∈ acc, it.links ≠ []) → ∀ it ∈ acc2, it.links ≠ [] := by
  intro blocks
  induction blocks with
  | nil =>
    intro rel seen acc seen2 acc2 h hacc
    simp only [scanBlocks, Except.ok.injEq, Prod.mk.injEq] at h
    rw [← h.2]
    exact hacc
  | cons b bs ih =>
    intro rel seen acc seen2 acc2 h hacc
    simp only [scanBlocks] at h
    split_ifs at h with hr ht htext
    · refine ih rel _ _ seen2 acc2 h ?_
      intro it hit
      rcases List.mem_append.mp hit with hi | hi
      · exact hacc it hi
      · simp only [List.mem_singleton] at hi
        rw [hi]
        exact hr
    · refine ih rel _ _ seen2 acc2 h ?_
      intro it hit
      rcases List.mem_append.mp hit with hi | hi
      · exact hacc it hi
      · simp only [List.mem_singleton] at hi
        rw [hi]
        exact hr

theorem scanFiles_links_nonempty :
    ∀ (files : List ScanFile) (seen : List String) (acc : List Item)
      (seen2 : List String) (acc2 : List Item),
      scanFiles files seen acc = .ok (seen2, acc2) →
      (∀ it ∈ acc, it.links ≠ []) → ∀ it ∈ acc2, it.links ≠ [] := by
  intro files
  induction files with
  | nil =>
    intro seen acc seen2 acc2 h hacc
    simp only [scanFiles, Except.ok.injEq, Prod.mk.injEq] at h
    rw [← h.2]
    exact hacc
  | cons f fs ih =>
    intro seen acc seen2 acc2 h hacc
    rw [scanFiles] at h
    split at h
    · exact ih seen acc seen2 acc2 h hacc
    · split at h
      · cases h
      · split at h
        · cases h
        · rename_i xo cs hco xp bl hpb xs s2 a2 hsb
          exact ih s2 a2 seen2 acc2 h
            (scanBlocks_links_nonempty bl f.relLabel seen acc s2 a2 hsb hacc)

theorem scanGo_links_nonempty :
    ∀ (dirs : List ScanDir) (seen : List String) (acc : List Item) (items : List Item),
      scanGo dirs seen acc = .ok items →
      (∀ it ∈ acc, it.links ≠ []) → ∀ it ∈ items, it.links ≠ [] := by
  intro dirs
  induction dirs with
  | nil =>
    intro seen acc items h hacc
    simp only [scanGo, Except.ok.injEq] at h
    rw [← h]
    exact hacc
  | cons d ds ih =>
    intro seen acc items h hacc
    rw [scanGo] at h
    by_cases hpres : d.present
    · rw [if_pos hpres] at h
      cases hs : scanFiles d.files seen acc with
      | error e =>
        rw [hs] at h
        cases h
      | ok sa =>
        rw [hs] at h
        obtain ⟨s2, a2⟩ := sa
        exact ih s2 a2 items h
          (scanFiles_links_nonempty d.files seen acc s2 a2 hs hacc)
    · rw [if_neg hpres] at h
      cases h

/-- Claim C2 (amended): every test record produced by the annotation scanner
has non-empty declared links: a scanned block with no requirement references
aborts the scan, so a successful scan never yields a zero-link test.  (The
item loader enforces no such check; see the counterexample.) -/
theorem scanner_tests_links_nonempty :
    (∀ (dirs : List ScanDir) (items : List Item),
      loadTestAnnotations dirs = .ok items → ∀ it ∈ items, it.links ≠ []) ∧
    (∀ (rel : String) (b : Block) (bs : List Block) (seen : List String) (acc : List Item),
      b.reqs = [] →
      scanBlocks rel (b :: bs) seen acc = .error (.missingReqs rel b.startLine)) := by
  constructor
  · intro dirs items h
    exact scanGo_links_nonempty dirs [] [] items h (by simp)
  · intro rel b bs seen acc h
    simp only [scanBlocks]
    rw [if_pos h]

/-! Claim C10 compares `extract_refs` against the specified collection rule;
the following two definitions follow the claim text, not the source. -/

/-- Collection rule as the claim words it: entries are the following lines
that start with the dash prefix, and collection stops at the first blank
line or first line not starting with it. -/
def refsCollectClaim : List String → List String
  | [] => []
  | l :: ls =>
    if stripStr l = "" then []
    else if startsDash (stripStr l) then refEntry l :: refsCollectClaim ls
    else []

/-- Search rule as the claim words it: entries follow the line whose
stripped content is exactly the header; with no header the list is empty. -/
def refsAfterHeaderClaim : List String → List String
  | [] => []
  | l :: ls =>
    if stripStr l = "References:" then refsCollectClaim ls
    else refsAfterHeaderClaim ls

/-- Reference extraction exactly as claim C10 describes it. -/
def extractRefsClaim (text : String) : List String :=
  refsAfterHeaderClaim ((pySplitlines text).map rstripStr)

/-- Collection rule amended to match the code: a line whose stripped
content is the header is skipped during collection instead of stopping
it. -/
def refsCollect : List String → List String
  | [] => []
  | l :: ls =>
    if stripStr l = "References:" then refsCollect ls
    else if stripStr l = "" then []
    else if startsDash (stripStr l) then refEntry l :: refsCollect ls
    else []

/-- Search rule of the amended description. -/
def refsAfterHeader : List String → List String
  | [] => []
  | l :: ls =>
    if stripStr l = "References:" then refsCollect ls
    else refsAfterHeader ls

/-- Reference extraction as amended claim C10 describes it. -/
def extractRefsAmended (text : String) : List String :=
  refsAfterHeader ((pySplitlines text).map rstripStr)

theorem extractRefsLoop_true_eq : ∀ ls : List String, extractRefsLoop ls true = refsCollect ls := by
  intro ls
  induction ls with
  | nil => rfl
  | cons l ls ih =>
    rw [extractRefsLoop, refsCollect]
    by_cases h1 : stripStr l = "References:"
    · rw [if_pos h1, if_pos h1]
      exact ih
    · rw [if_neg h1, if_neg h1]
      simp only [eq_self_iff_true, if_true]
      split_ifs with h2 h3
      · rfl
      · rw [ih]
      · rfl

theorem extractRefsLoop_false_eq : ∀ ls : List String, extractRefsLoop ls false = refsAfterHeader ls := by
  intro ls
  induction ls with
  | nil => rfl
  | cons l ls ih =>
    rw [extractRefsLoop, refsAfterHeader]
    by_cases h1 : stripStr l = "References:"
    · rw [if_pos h1, if_pos h1]
      exact extractRefsLoop_true_eq ls
    · rw [if_neg h1, if_neg h1]
      simp only [Bool.false_eq_true, if_false]
      exact ih

/-- Claim C10 (amended): `extract_refs` collects the dash entries following
the first header line, skipping (rather than stopping at) further header
lines, and stopping at the first blank line or other non-entry line. -/
theorem extract_refs_amended_spec : ∀ text : String, extractRefs text = extractRefsAmended text :=
  fun _ => extractRefsLoop_false_eq _

/-- Claim C10 counterexample: a second header line during collection does
not stop `extract_refs` as the claim says it should; the code keeps
collecting past it. -/
theorem extract_refs_claim_counterexample :
    extractRefs ("References:\n- a\nReferences:\n- b") = ["a", "b"] ∧
    extractRefsClaim ("References:\n- a\nReferences:\n- b") = ["a"] ∧
    ¬ extractRefs ("References:\n- a\nReferences:\n- b")
        = extractRefsClaim ("References:\n- a\nReferences:\n- b") :=
  ⟨rfl, rfl, by decide⟩

/-! Concrete fixtures: the end-to-end example of the specification
(requirements R1 and R2, a declarative test T1, a scanned test T9, and a
dangling reference GHOST), plus loader files for the duplicate-uid and
zero-link cases. -/

/-- Requirement R1 with no declared links. -/
def wR1 : Item :=
  { id := "R1", text := "req one", links := [], path := "r/R1.yml", refs := none }

/-- Requirement R2 declaring T9 and a dangling id. -/
def wR2 : Item :=
  { id := "R2", text := "req two", links := ["T9", "GHOST"], path := "r/R2.yml", refs := none }

/-- Declarative test T1 declaring R1. -/
def wT1 : Item :=
  { id := "T1", text := "test one", links := ["R1"], path := "t/T1.yml", refs := none }

/-- Scanned test T9 declaring R2. -/
def wT9 : Item :=
  { id := "T9", text := "hi", links := ["R2"], path := "s/f.go", refs := some [] }

/-- The fixture requirement set. -/
def wReqs : List Item := [wR1, wR2]

/-- The fixture test set. -/
def wTests : List Item := [wT1, wT9]

/-- The payload the resolver produces on the fixture. -/
def wPayload : Payload := (resolve wReqs wTests).toOption.getD default

/-- First item file claiming uid X. -/
def dupA : SrcFile :=
  { filePath := "/r/reqs/a.yml", relPath := "reqs/a.yml", name := "a.yml", stem := "a",
    data := { uid := some (.sc (.s ("X"))), text := none, title := none, links := none } }

/-- Second item file claiming uid X. -/
def dupB : SrcFile :=
  { filePath := "/r/reqs/b.yml", relPath := "reqs/b.yml", name := "b.yml", stem := "b",
    data := { uid := some (.sc (.s ("X"))), text := none, title := none, links := none } }

/-- A declarative test item file with no `links` field at all. -/
def noLinksTest : SrcFile :=
  { filePath := "/r/t/t1.yml", relPath := "t/t1.yml", name := "t1.yml", stem := "t1",
    data := { uid := none, text := none, title := none, links := none } }

/-- A scan directory containing one annotated source file. -/
def wScanDirs : List ScanDir :=
  [{ dirPath := "/s", present := true,
     files := [{ fullPath := "/s/f.go", relLabel := "s/f.go",
                 content := some ("HODOR-ID: T9\nHODOR-REQS: R2\nHODOR-TEXT: hi") }] }]

/-- Witness for claim C1 at the fixture input. -/
theorem resolved_links_endpoints_exist_witness :
    (("R1", "T1").1 ∈ wReqs.map Item.id ∧ ("R1", "T1").2 ∈ wTests.map Item.id) ∧
    (resolve wReqs wTests).isOk = true :=
  ⟨resolved_links_endpoints_exist.1 wReqs wTests wPayload (by rfl) ("R1", "T1") (by decide),
   resolved_links_endpoints_exist.2 wReqs wTests (by decide)⟩

/-- Witness for claim C3 at the fixture input: the R2/T9 link is declared
from both sides and appears exactly once. -/
theorem link_declared_either_side_unique_witness :
    (wPayload.links.filter (fun q => q = (wR2.id, wT9.id))).length = 1 :=
  link_declared_either_side_unique wReqs wTests wPayload wR2 wT9 (by rfl)
    (by decide) (by decide) (Or.inl (by decide))

/-- Witness for claim C4 at the fixture input. -/
theorem coverage_pct_formula_witness :
    wPayload.summary.requirements_total = wPayload.requirements.length ∧
    wPayload.summary.requirements_linked = linkedReqCount wPayload.requirements ∧
    (wPayload.summary.requirements_total = 0 → wPayload.summary.coverage_pct = 0) ∧
    (wPayload.summary.requirements_total ≠ 0 →
      wPayload.summary.coverage_pct =
        pyCoverage (linkedReqCount wPayload.requirements) wPayload.requirements.length) :=
  coverage_pct_formula wReqs wTests wPayload (by rfl)

/-- Witness for claim C8 at the fixture input. -/
theorem summary_counts_partition_witness :
    wPayload.summary.requirements_linked + wPayload.summary.requirements_unlinked
        = wPayload.summary.requirements_total ∧
    wPayload.summary.tests_linked + wPayload.summary.tests_unlinked
        = wPayload.summary.tests_total ∧
    wPayload.summary.requirements_linked = linkedReqCount wPayload.requirements ∧
    wPayload.summary.tests_linked = linkedTestCount wPayload.tests :=
  summary_counts_partition wReqs wTests wPayload (by rfl)

/-- Claim C5 counterexample: the duplicate-uid error carries the second
file path only, not both paths. -/
theorem duplicate_uid_error_names_one_path :
    loadItems [{ dirPath := "/r/reqs", present := true, files := [dupA, dupB] }] ("Requirement")
        = .error (.duplicateItemId ("X") ("/r/reqs/b.yml")) ∧
    ("/r/reqs/b.yml") ∈ (AuditError.duplicateItemId ("X") ("/r/reqs/b.yml")).paths ∧
    ("/r/reqs/a.yml") ∉ (AuditError.duplicateItemId ("X") ("/r/reqs/b.yml")).paths :=
  ⟨rfl, by decide, by decide⟩

/-- Witness for amended claim C5. -/
theorem duplicate_ids_fatal_witness :
    loadItems [{ dirPath := "/r/reqs", present := true, files := [dupA, dupB] }] ("Test")
        = .error (.duplicateItemId ("X") ("/r/reqs/b.yml")) ∧
    (firstDupFile [dupA, dupB] []).isSome = true ∧
    resolve [] [wT1, wT1] = .error (.duplicateTestId ("T1")) :=
  ⟨duplicate_ids_fatal.1 [{ dirPath := "/r/reqs", present := true, files := [dupA, dupB] }]
     ("Test") ("X") ("/r/reqs/b.yml") (by decide) (by rfl),
   duplicate_ids_fatal.2.1 [dupA, dupB] (by decide),
   duplicate_ids_fatal.2.2 [] [wT1, wT1] ("T1") (by rfl)⟩

/-- Claim C2 counterexample: a declarative test record with no links loads
without error; the whole run succeeds and reports the test as unlinked. -/
theorem itemloader_zero_link_test_not_fatal :
    (buildPayload [] [{ dirPath := "/r/t", present := true, files := [noLinksTest] }] []).map
        (fun p => p.tests.map (fun t => (t.links, t.status)))
      = .ok [([], "unlinked")] := rfl

/-- Witness for amended claim C2. -/
theorem scanner_tests_links_nonempty_witness :
    wT9.links ≠ [] ∧
    scanBlocks ("s/f.go") [{ id := none, reqs := [], refs := [], text := [], startLine := 7 }] [] []
      = .error (.missingReqs ("s/f.go") 7) :=
  ⟨scanner_tests_links_nonempty.1 wScanDirs [wT9] (by rfl) wT9 (by simp),
   scanner_tests_links_nonempty.2 ("s/f.go")
     { id := none, reqs := [], refs := [], text := [], startLine := 7 } [] [] [] (by rfl)⟩

/-- Witness for claim C6 at concrete lines. -/
theorem parse_hodor_blocks_state_machine_witness :
    parseGo ("p") [("x")] 1 none [] = parseGo ("p") [] 2 none [] ∧
    parseGo ("p") [("x")] 1 (some (emptyBlock 1)) [] = parseGo ("p") [] 2 none ([] ++ [emptyBlock 1]) ∧
    (parseGo ("p") [("HODOR-REQS: R1")] 3 none []
        = parseGo ("p") [] 4 (some { id := none, reqs := ["R1"], refs := [], text := [], startLine := 3 }) [] ∧
      (Block.startLine { id := none, reqs := ["R1"], refs := [], text := [], startLine := 3 }) = 3) ∧
    (parseGo ("p") [("HODOR-TEXT: hi")] 3
          (some { id := none, reqs := ["R1"], refs := [], text := [], startLine := 3 }) []
        = parseGo ("p") [] 4 (some { id := none, reqs := ["R1"], refs := [], text := ["hi"], startLine := 3 }) [] ∧
      (Block.startLine { id := none, reqs := ["R1"], refs := [], text := ["hi"], startLine := 3 })
        = (Block.startLine { id := none, reqs := ["R1"], refs := [], text := [], startLine := 3 })) :=
  ⟨parse_hodor_blocks_state_machine.2.1 ("p") ("x") [] 1 [] (by rfl),
   parse_hodor_blocks_state_machine.2.2.1 ("p") ("x") [] 1 (emptyBlock 1) [] (by rfl),
   parse_hodor_blocks_state_machine.2.2.2.1 ("p") ("HODOR-REQS: R1") ("HODOR-REQS") ("R1") [] 3 [] _ (by rfl) (by rfl),
   parse_hodor_blocks_state_machine.2.2.2.2.1 ("p") ("HODOR-TEXT: hi") ("HODOR-TEXT") ("hi") [] 3 _ [] _ (by rfl) (by rfl)⟩

/-- Witness for claim C7. -/
theorem synthesized_id_form_and_injective_witness :
    effectiveTestId none ("a") 3 = ("a") ++ "#L" ++ String.mk (natDigits 3) ∧
    (("a" : String) = ("a") ∧ (3 : Nat) = 3) :=
  ⟨synthesized_id_form_and_injective.1 ("a") 3,
   synthesized_id_form_and_injective.2 ("a") ("a") 3 3 rfl⟩

/-- Witness for claim C9. -/
theorem empty_hodor_id_synthesizes_witness :
    matchDirective ("HODOR-ID:" ++ "  ") = some ("HODOR-ID", "") ∧
    applyDirective (emptyBlock 1) ("HODOR-ID") ("") ("p") 1
        = .ok { emptyBlock 1 with id := some ("") } ∧
    (effectiveTestId (some ("")) ("a") 2 = synthId ("a") 2 ∧ synthId ("a") 2 ≠ "") :=
  ⟨empty_hodor_id_synthesizes.1 ("  ") (by decide),
   empty_hodor_id_synthesizes.2.1 (emptyBlock 1) ("p") 1,
   empty_hodor_id_synthesizes.2.2 ("a") 2⟩

end Hodor
